import Mathlib

/-!
# Verification of rssant: FeedChecksum and ActorNode

Shallow embedding of `rssant_feedlib/feed_checksum.py` and `actorlib/node.py`,
with theorems settling the specification claims about them.

Bytes are modelled as `List Nat` (each element one byte value); Python's
`OrderedDict` is modelled as an association list with in-place update
(assignment of an existing key keeps its position, a new key is appended),
which matches CPython `dict`/`OrderedDict` insertion-order semantics.
Fallible Python code (raising `ValueError` / `struct.error`) is modelled with
`Except String`.
-/

namespace Rssant

abbrev Bytes := List Nat

/-! ## FeedChecksum (rssant_feedlib/feed_checksum.py) -/

/-- `FeedChecksum._key_len`. -/
def keyLen : Nat := 4

/-- `FeedChecksum._val_len`. -/
def valLen : Nat := 8

/-- `FeedChecksum._key_val_len`. -/
def keyValLen : Nat := keyLen + valLen

/-- `FeedChecksum._check_key_value` as a boolean test: `len(key) == 4` and
`len(value) == 8` (the Python method raises `ValueError` otherwise). -/
def checkKeyValue (k v : Bytes) : Bool := k.length == keyLen && v.length == valLen

/-- `OrderedDict` assignment `m[k] = v`: update in place when the key exists
(keeping its position), append otherwise. -/
def odSet : List (Bytes × Bytes) → Bytes → Bytes → List (Bytes × Bytes)
  | [], k, v => [(k, v)]
  | (k0, v0) :: rest, k, v =>
    if k0 = k then (k, v) :: rest else (k0, v0) :: odSet rest k v

/-- `OrderedDict.get m k`: the value stored at `k`, if any. -/
def odGet : List (Bytes × Bytes) → Bytes → Option Bytes
  | [], _ => none
  | (k0, v0) :: rest, k => if k0 = k then some v0 else odGet rest k

/-- The state of a `FeedChecksum` object: its `version` and its ordered map
`_map` from 4-byte ident hashes to 8-byte content hashes. -/
structure FeedChecksum where
  version : Nat
  map : List (Bytes × Bytes)
deriving DecidableEq, Repr

/-- The loop of `FeedChecksum.__init__`:
`for key, value in items: self._check_key_value(key, value); self._map[key] = value`. -/
def insertItems : List (Bytes × Bytes) → List (Bytes × Bytes) →
    Except String (List (Bytes × Bytes))
  | m, [] => .ok m
  | m, (k, v) :: rest =>
    if checkKeyValue k v then insertItems (odSet m k v) rest
    else .error "invalid key or value length"

/-- `FeedChecksum.__init__(items, version)`: rejects `version != 1`, then folds
the items into the ordered map, checking each key/value length. -/
def FeedChecksum.init (items : List (Bytes × Bytes)) (version : Nat) :
    Except String FeedChecksum :=
  if version = 1 then (insertItems [] items).map (fun m => ⟨version, m⟩)
  else .error "not support version"

/-- `FeedChecksum.__eq__`: same version and equal ordered maps (comparing two
`OrderedDict`s in Python is order-sensitive). -/
def FeedChecksum.feedEq (a b : FeedChecksum) : Bool :=
  a.version == b.version && a.map == b.map

/-- `FeedChecksum.size`. -/
def FeedChecksum.size (c : FeedChecksum) : Nat := c.map.length

/-- The loop body of `FeedChecksum.dump`: accumulate `keys_buffer` and
`vals_buffer`, checking every key/value length. -/
def dumpBuffers : List (Bytes × Bytes) → Except String (Bytes × Bytes)
  | [] => .ok ([], [])
  | (k, v) :: rest =>
    if checkKeyValue k v then
      (dumpBuffers rest).map (fun p => (k ++ p.1, v ++ p.2))
    else .error "invalid key or value length"

/-- `FeedChecksum.dump(limit)`: one version byte (`struct.pack('>B', version)`,
which fails for values ≥ 256), then the keys buffer, then the values buffer.
When a limit is given and `size > limit`, only the last `limit` items are
serialized (`itertools.islice(items, length - limit, length)`). -/
def FeedChecksum.dump (c : FeedChecksum) (limit : Option Nat) :
    Except String Bytes :=
  let length := c.map.length
  let items := match limit with
    | some l => if l < length then c.map.drop (length - l) else c.map
    | none => c.map
  if c.version < 256 then
    (dumpBuffers items).map (fun p => c.version :: (p.1 ++ p.2))
  else .error "version out of range"

/-- Split a byte string into consecutive chunks of `n` bytes
(`struct.Struct(ns).iter_unpack`); our callers always pass buffers whose
length is an exact multiple of `n`. -/
def chunk (n : Nat) (l : Bytes) : List Bytes :=
  if h : n = 0 ∨ l = [] then [] else
    l.take n :: chunk n (l.drop n)
termination_by l.length
decreasing_by
  push_neg at h
  simp only [List.length_drop]
  exact Nat.sub_lt (List.length_pos.mpr h.2) (Nat.pos_of_ne_zero h.1)

/-- `FeedChecksum.load(data)`: unpack the version byte (failing on empty
input), reject versions other than 1, require the remaining length to be a
multiple of 12, split it into an n·4-byte keys buffer and an n·8-byte values
buffer, zip the 4-byte keys with the 8-byte values, and rebuild via
`__init__`. -/
def FeedChecksum.load (data : Bytes) : Except String FeedChecksum :=
  match data with
  | [] => .error "unpack requires a buffer of 1 bytes"
  | version :: rest =>
    if version = 1 then
      let n := rest.length / keyValLen
      if rest.length % keyValLen = 0 then
        FeedChecksum.init
          ((chunk keyLen (rest.take (n * keyLen))).zip
            (chunk valLen (rest.drop (n * keyLen)))) version
      else .error "unexpect data length"
    else .error "not support version"

/-! ### Round-trip lemmas -/

/-- Assigning a fresh key appends it at the end. -/
theorem odSet_of_not_mem (m : List (Bytes × Bytes)) (k : Bytes) (v : Bytes)
    (h : k ∉ m.map Prod.fst) : odSet m k v = m ++ [(k, v)] := by
  induction m with
  | nil => rfl
  | cons p rest ih =>
    obtain ⟨k0, v0⟩ := p
    simp only [List.map_cons, List.mem_cons] at h
    push_neg at h
    simp only [odSet, if_neg (Ne.symm h.1), List.cons_append, List.cons.injEq,
      true_and]
    exact ih h.2

/-- `odGet` after `odSet` at the same key returns the new value. -/
theorem odGet_odSet_self (m : List (Bytes × Bytes)) (k : Bytes) (v : Bytes) :
    odGet (odSet m k v) k = some v := by
  induction m with
  | nil => simp [odSet, odGet]
  | cons p rest ih =>
    obtain ⟨k0, v0⟩ := p
    by_cases hk : k0 = k
    · simp [odSet, odGet, hk]
    · simp [odSet, odGet, hk, ih]

/-- Inserting items whose keys are fresh and pairwise distinct just appends
them, with all checks passing. -/
theorem insertItems_ok (l : List (Bytes × Bytes)) :
    ∀ m : List (Bytes × Bytes),
    (∀ p ∈ l, checkKeyValue p.1 p.2 = true) →
    (l.map Prod.fst).Nodup →
    (∀ p ∈ l, p.1 ∉ m.map Prod.fst) →
    insertItems m l = .ok (m ++ l) := by
  induction l with
  | nil => intro m _ _ _; simp [insertItems]
  | cons p rest ih =>
    intro m hval hnd hdis
    obtain ⟨k, v⟩ := p
    simp only [List.map_cons, List.nodup_cons] at hnd
    rw [insertItems, if_pos (hval (k, v) (List.mem_cons_self _ _)),
      odSet_of_not_mem m k v (hdis (k, v) (List.mem_cons_self _ _))]
    rw [ih (m ++ [(k, v)])
      (fun q hq => hval q (List.mem_cons_of_mem _ hq)) hnd.2 ?_]
    · simp
    · intro q hq
      simp only [List.map_append, List.mem_append, List.map_cons,
        List.map_nil, List.mem_singleton]
      push_neg
      refine ⟨hdis q (List.mem_cons_of_mem _ hq), ?_⟩
      intro hqk
      exact hnd.1 (hqk ▸ List.mem_map_of_mem Prod.fst hq)

/-- `dumpBuffers` on valid items produces the concatenated key and value
buffers. -/
theorem dumpBuffers_ok (l : List (Bytes × Bytes))
    (hval : ∀ p ∈ l, checkKeyValue p.1 p.2 = true) :
    dumpBuffers l = .ok ((l.map Prod.fst).flatten, (l.map Prod.snd).flatten) := by
  induction l with
  | nil => rfl
  | cons p rest ih =>
    obtain ⟨k, v⟩ := p
    rw [dumpBuffers, if_pos (hval (k, v) (List.mem_cons_self _ _)),
      ih (fun q hq => hval q (List.mem_cons_of_mem _ hq))]
    simp [Except.map]

/-- Flattening lists of constant length `n` gives length `count · n`. -/
theorem flatten_length_const (n : Nat) (l : List Bytes)
    (h : ∀ x ∈ l, x.length = n) : l.flatten.length = l.length * n := by
  induction l with
  | nil => simp
  | cons x rest ih =>
    simp only [List.flatten_cons, List.length_append, List.length_cons,
      h x (List.mem_cons_self _ _), ih (fun y hy => h y (List.mem_cons_of_mem _ hy))]
    ring

/-- Chunking the flattening of equal-length blocks recovers the blocks. -/
theorem chunk_flatten (n : Nat) (hn : 0 < n) (l : List Bytes)
    (h : ∀ x ∈ l, x.length = n) : chunk n l.flatten = l := by
  induction l with
  | nil =>
    rw [List.flatten_nil, chunk]
    simp
  | cons x rest ih =>
    have hx : x.length = n := h x (List.mem_cons_self _ _)
    have hxne : x ≠ [] := by
      intro hx0
      rw [hx0] at hx
      simp only [List.length_nil] at hx
      omega
    rw [List.flatten_cons, chunk]
    have hne : ¬(n = 0 ∨ x ++ rest.flatten = []) := by
      push_neg
      exact ⟨by omega, by simp [hxne]⟩
    rw [dif_neg hne, List.take_left' hx, List.drop_left' hx,
      ih (fun y hy => h y (List.mem_cons_of_mem _ hy))]

/-- Zipping the two projections of a pair list rebuilds the list. -/
theorem zip_fst_snd (l : List (Bytes × Bytes)) :
    (l.map Prod.fst).zip (l.map Prod.snd) = l := by
  induction l with
  | nil => rfl
  | cons p rest ih => simp [ih]

/-- Core round-trip lemma: for a checksum with version 1, valid key/value
lengths and pairwise-distinct keys (every checksum reachable through the
Python API satisfies these), `load` inverts `dump` with no limit. -/
theorem load_dump_none (c : FeedChecksum)
    (hv : c.version = 1)
    (hval : ∀ p ∈ c.map, checkKeyValue p.1 p.2 = true)
    (hnd : (c.map.map Prod.fst).Nodup) :
    (c.dump none).bind FeedChecksum.load = .ok c := by
  have hkeys : ∀ x ∈ c.map.map Prod.fst, x.length = keyLen := by
    intro x hx
    obtain ⟨p, hp, hpx⟩ := List.mem_map.mp hx
    have := hval p hp
    simp only [checkKeyValue, Bool.and_eq_true, beq_iff_eq] at this
    rw [← hpx]; exact this.1
  have hvals : ∀ x ∈ c.map.map Prod.snd, x.length = valLen := by
    intro x hx
    obtain ⟨p, hp, hpx⟩ := List.mem_map.mp hx
    have := hval p hp
    simp only [checkKeyValue, Bool.and_eq_true, beq_iff_eq] at this
    rw [← hpx]; exact this.2
  have hklen : (c.map.map Prod.fst).flatten.length = c.map.length * keyLen := by
    rw [flatten_length_const keyLen _ hkeys, List.length_map]
  have hvlen : (c.map.map Prod.snd).flatten.length = c.map.length * valLen := by
    rw [flatten_length_const valLen _ hvals, List.length_map]
  rw [FeedChecksum.dump]
  simp only [hv]
  rw [if_pos (by omega), dumpBuffers_ok c.map hval]
  simp only [Except.map, Except.bind]
  rw [FeedChecksum.load]
  have hrest : ((c.map.map Prod.fst).flatten ++ (c.map.map Prod.snd).flatten).length
      = c.map.length * keyValLen := by
    rw [List.length_append, hklen, hvlen, keyValLen, keyLen, valLen]
    ring
  rw [if_pos rfl, hrest]
  have hkv : keyValLen = 12 := rfl
  rw [if_pos (by rw [hkv]; exact Nat.mul_mod_left _ _)]
  have hdiv : c.map.length * keyValLen / keyValLen = c.map.length :=
    Nat.mul_div_cancel _ (by rw [hkv]; omega)
  rw [hdiv, List.take_left' (by rw [hklen]), List.drop_left' (by rw [hklen])]
  rw [chunk_flatten keyLen (by rw [keyLen]; omega) _ hkeys,
    chunk_flatten valLen (by rw [valLen]; omega) _ hvals,
    zip_fst_snd]
  rw [FeedChecksum.init, if_pos rfl,
    insertItems_ok c.map [] hval hnd (by simp)]
  simp only [Except.map, List.nil_append]
  rw [← hv]

/-! ### FeedChecksum.update -/

/-- `FeedChecksum._hash(value, length)`: the md5 digest of the UTF-8 encoding
of `value`, truncated to `length` bytes. The md5 digest itself is computed by
`hashlib` (outside the repository), so it is passed in as a parameter `md5`;
real md5 digests always have 16 bytes. -/
def mdHash (md5 : String → Bytes) (value : String) (length : Nat) : Bytes :=
  (md5 value).take length

/-- `FeedChecksum.update(ident, content)`: rejects an empty ident, hashes the
ident to a 4-byte key and the content to an 8-byte value, and stores the new
value iff the old one is missing/falsy (`not old_sum`) or different, returning
whether the map changed. -/
def FeedChecksum.update (md5 : String → Bytes) (c : FeedChecksum)
    (ident content : String) : Except String (Bool × FeedChecksum) :=
  if ident = "" then .error "ident can not be empty"
  else
    let key := mdHash md5 ident keyLen
    let oldSum := odGet c.map key
    let newSum := mdHash md5 content valLen
    if (oldSum.getD []).isEmpty || oldSum != some newSum then
      .ok (true, ⟨c.version, odSet c.map key newSum⟩)
    else .ok (false, c)

/-! ### dump with a limit -/

/-- `dump(limit=k)` is the same as dumping, with no limit, the checksum
holding only the last `min(size, k)` items. -/
theorem dump_limit_eq_dump_drop (c : FeedChecksum) (k : Nat) :
    c.dump (some k) =
      FeedChecksum.dump ⟨c.version, c.map.drop (c.map.length - k)⟩ none := by
  by_cases hk : k < c.map.length
  · simp [FeedChecksum.dump, hk]
  · have h0 : c.map.length - k = 0 := by omega
    simp [FeedChecksum.dump, hk, h0]

/-! ## Claim theorems about FeedChecksum -/

/-- C1: for every FeedChecksum whose stored items all have 4-byte keys and
8-byte values (and, as guaranteed for every checksum built through the Python
API, pairwise-distinct keys and version 1), `load(dump())` with no limit
returns a checksum equal to the original — same version and same
key-to-value map in the same order, both as Lean equality and as the
`__eq__` test `feedEq`. -/
theorem feedChecksum_dump_load_roundtrip (c : FeedChecksum)
    (hv : c.version = 1)
    (hval : ∀ p ∈ c.map, checkKeyValue p.1 p.2 = true)
    (hnd : (c.map.map Prod.fst).Nodup) :
    ∃ c', (c.dump none).bind FeedChecksum.load = .ok c' ∧
      c'.feedEq c = true ∧ c' = c := by
  refine ⟨c, load_dump_none c hv hval hnd, ?_, rfl⟩
  simp [FeedChecksum.feedEq]

/-- Witness for C1 at a concrete one-item checksum. -/
theorem feedChecksum_dump_load_roundtrip_witness :
    ((FeedChecksum.mk 1 [([0, 1, 2, 3], [0, 1, 2, 3, 4, 5, 6, 7])]).version = 1) ∧
    (∀ p ∈ (FeedChecksum.mk 1 [([0, 1, 2, 3], [0, 1, 2, 3, 4, 5, 6, 7])]).map,
      checkKeyValue p.1 p.2 = true) ∧
    ∃ c', ((FeedChecksum.mk 1 [([0, 1, 2, 3], [0, 1, 2, 3, 4, 5, 6, 7])]).dump none).bind
        FeedChecksum.load = .ok c' ∧
      c'.feedEq (FeedChecksum.mk 1 [([0, 1, 2, 3], [0, 1, 2, 3, 4, 5, 6, 7])]) = true ∧
      c' = FeedChecksum.mk 1 [([0, 1, 2, 3], [0, 1, 2, 3, 4, 5, 6, 7])] :=
  ⟨rfl, by decide,
    feedChecksum_dump_load_roundtrip _ rfl (by decide) (by decide)⟩

/-- C9: with a nonempty ident, `update` succeeds and returns `true`, storing
the 8-byte content hash under the 4-byte ident hash, exactly when that key is
absent or maps to a different hash; otherwise it returns `false` and leaves
the checksum unchanged. In particular an immediate second call with the same
arguments returns `false`. Uses that real md5 digests have 16 bytes, so
stored hashes are never empty/falsy. -/
theorem feedChecksum_update_changed_iff_and_idempotent (md5 : String → Bytes)
    (hmd5 : ∀ s, (md5 s).length = 16) (c : FeedChecksum)
    (ident content : String) (hident : ident ≠ "") :
    ∃ r c', c.update md5 ident content = .ok (r, c') ∧
      (r = true ↔
        odGet c.map (mdHash md5 ident keyLen) ≠ some (mdHash md5 content valLen)) ∧
      (r = true → c' = ⟨c.version,
        odSet c.map (mdHash md5 ident keyLen) (mdHash md5 content valLen)⟩) ∧
      (r = false → c' = c) ∧
      c'.update md5 ident content = .ok (false, c') := by
  have hnew : mdHash md5 content valLen ≠ [] := by
    intro h
    have hl := congrArg List.length h
    rw [mdHash, List.length_take, hmd5 content] at hl
    simp [valLen] at hl
  have hnewE : (mdHash md5 content valLen).isEmpty = false := by
    cases hns : mdHash md5 content valLen with
    | nil => exact absurd hns hnew
    | cons a t => rfl
  have hsecond : ∀ c₂ : FeedChecksum,
      odGet c₂.map (mdHash md5 ident keyLen) = some (mdHash md5 content valLen) →
      c₂.update md5 ident content = .ok (false, c₂) := by
    intro c₂ hget
    simp [FeedChecksum.update, hident, hget, hnewE]
  cases hold : odGet c.map (mdHash md5 ident keyLen) with
  | none =>
    refine ⟨true, ⟨c.version, odSet c.map (mdHash md5 ident keyLen)
      (mdHash md5 content valLen)⟩, ?_, ?_, fun _ => rfl, by simp, ?_⟩
    · simp [FeedChecksum.update, hident, hold]
    · simp [hold]
    · exact hsecond _ (odGet_odSet_self _ _ _)
  | some v =>
    by_cases hveq : v = mdHash md5 content valLen
    · subst hveq
      refine ⟨false, c, hsecond c hold, ?_, by simp, fun _ => rfl, hsecond c hold⟩
      simp [hold]
    · refine ⟨true, ⟨c.version, odSet c.map (mdHash md5 ident keyLen)
        (mdHash md5 content valLen)⟩, ?_, ?_, fun _ => rfl, by simp, ?_⟩
      · simp [FeedChecksum.update, hident, hold, hveq]
      · simp [hold, hveq]
      · exact hsecond _ (odGet_odSet_self _ _ _)

/-- Witness for C9: updating an empty checksum with a 16-byte digest
function, a nonempty ident and some content. -/
theorem feedChecksum_update_witness :
    (∀ s : String, ((fun _ => List.range 16) s : Bytes).length = 16) ∧
    ("a" : String) ≠ "" ∧
    ∃ r c', FeedChecksum.update (fun _ => List.range 16) ⟨1, []⟩ "a" "b" = .ok (r, c') ∧
      (r = true ↔
        odGet (FeedChecksum.mk 1 []).map (mdHash (fun _ => List.range 16) "a" keyLen) ≠
          some (mdHash (fun _ => List.range 16) "b" valLen)) ∧
      (r = true → c' = ⟨(FeedChecksum.mk 1 []).version,
        odSet (FeedChecksum.mk 1 []).map (mdHash (fun _ => List.range 16) "a" keyLen)
          (mdHash (fun _ => List.range 16) "b" valLen)⟩) ∧
      (r = false → c' = FeedChecksum.mk 1 []) ∧
      c'.update (fun _ => List.range 16) "a" "b" = .ok (false, c') :=
  ⟨fun _ => rfl, by decide,
    feedChecksum_update_changed_iff_and_idempotent
      (fun _ => List.range 16) (fun _ => rfl) ⟨1, []⟩ "a" "b" (by decide)⟩

/-- C10: `dump(limit=k)` serializes exactly the last `min(size, k)` items in
insertion order — it equals the no-limit dump of the checksum holding the
length `min(size, k)` suffix of the map — and loading the result yields that
suffix checksum. -/
theorem feedChecksum_dump_limit_last_items (c : FeedChecksum) (k : Nat)
    (hv : c.version = 1)
    (hval : ∀ p ∈ c.map, checkKeyValue p.1 p.2 = true)
    (hnd : (c.map.map Prod.fst).Nodup) :
    c.dump (some k) =
      FeedChecksum.dump ⟨c.version, c.map.drop (c.map.length - k)⟩ none ∧
    (c.map.drop (c.map.length - k)).length = min c.map.length k ∧
    (c.dump (some k)).bind FeedChecksum.load =
      .ok ⟨c.version, c.map.drop (c.map.length - k)⟩ ∧
    (FeedChecksum.mk c.version (c.map.drop (c.map.length - k))).size =
      min c.size k := by
  have hlen : (c.map.drop (c.map.length - k)).length = min c.map.length k := by
    rw [List.length_drop]; omega
  refine ⟨dump_limit_eq_dump_drop c k, hlen, ?_, hlen⟩
  rw [dump_limit_eq_dump_drop c k]
  exact load_dump_none ⟨c.version, c.map.drop (c.map.length - k)⟩ hv
    (fun p hp => hval p (List.mem_of_mem_drop hp))
    (by
      show (List.map Prod.fst (c.map.drop (c.map.length - k))).Nodup
      rw [List.map_drop]
      exact hnd.sublist (List.drop_sublist _ _))

/-- Witness for C10 at a concrete two-item checksum with limit 1. -/
theorem feedChecksum_dump_limit_witness :
    ((FeedChecksum.mk 1 [([0, 1, 2, 3], [0, 1, 2, 3, 4, 5, 6, 7]),
        ([9, 9, 9, 9], [1, 1, 1, 1, 1, 1, 1, 1])]).version = 1) ∧
    (FeedChecksum.mk 1 [([0, 1, 2, 3], [0, 1, 2, 3, 4, 5, 6, 7]),
        ([9, 9, 9, 9], [1, 1, 1, 1, 1, 1, 1, 1])]).dump (some 1) =
      FeedChecksum.dump ⟨1, [([9, 9, 9, 9], [1, 1, 1, 1, 1, 1, 1, 1])]⟩ none ∧
    ((FeedChecksum.mk 1 [([0, 1, 2, 3], [0, 1, 2, 3, 4, 5, 6, 7]),
        ([9, 9, 9, 9], [1, 1, 1, 1, 1, 1, 1, 1])]).dump (some 1)).bind
      FeedChecksum.load = .ok ⟨1, [([9, 9, 9, 9], [1, 1, 1, 1, 1, 1, 1, 1])]⟩ := by
  have h := feedChecksum_dump_limit_last_items
    (FeedChecksum.mk 1 [([0, 1, 2, 3], [0, 1, 2, 3, 4, 5, 6, 7]),
      ([9, 9, 9, 9], [1, 1, 1, 1, 1, 1, 1, 1])]) 1 rfl (by decide) (by decide)
  exact ⟨rfl, h.1, h.2.2.1⟩

/-! ## actorlib (actorlib/node.py)

The message/registry/executor classes live in modules of the repository that
are not part of the provided sources (`message.py`, `registery.py`,
`executor.py`); where `node.py` depends on them their contract is modelled
from the spec, marked `Modelled from the spec:` below. Everything else
follows `node.py` itself. -/

/-- Message content (a JSON-like mapping); its internals are irrelevant to
the claims, only whether it was passed (`None` becomes `{}`). -/
abbrev Content := List (String × String)

/-- The fields of `ActorMessage` used by `node.py`. -/
structure ActorMessage where
  src : String
  dst : String
  dst_node : Option String
  content : Content
  is_ask : Bool
  require_ack : Bool
  expire_at : Option Int
deriving DecidableEq, Repr

/-- Modelled from the spec (`registery.py` is not among the sources): the
client-side registry view — the current node's name, the optional registry
node, and the module → owning-node mapping. -/
structure ActorRegistery where
  current_node : String
  registery_node : Option String
  owner : String → Option String

/-- The module portion of an actor name: the prefix before the first dot. -/
def moduleOf (dst : String) : String := (dst.splitOn ".").headD ""

/-- Modelled from the spec (`registery.py` is not among the sources):
`complete_message` fills a missing `dst_node` by looking up the owner of the
module portion of `dst`, failing with `RoutingError` when no owner is
known. -/
def completeMessage (r : ActorRegistery) (m : ActorMessage) :
    Except String ActorMessage :=
  match m.dst_node with
  | some _ => .ok m
  | none =>
    match r.owner (moduleOf m.dst) with
    | some node => .ok { m with dst_node := some node }
    | none => .error "RoutingError"

/-- Modelled from the spec (`registery.py` is not among the sources):
`is_local_message` is true iff `dst_node` equals the current node's name. -/
def isLocalMessage (r : ActorRegistery) (m : ActorMessage) : Bool :=
  m.dst_node == some r.current_node

/-- `ActorNode._create_message`: defaults `content` to `{}`, sets
`src='actor.init'`, and completes routing through the registry. -/
def createMessage (r : ActorRegistery) (dst : String) (content : Option Content)
    (dst_node : Option String) (is_ask require_ack : Bool)
    (expire_at : Option Int) : Except String ActorMessage :=
  completeMessage r
    { src := "actor.init", dst := dst, dst_node := dst_node,
      content := content.getD [], is_ask := is_ask,
      require_ack := require_ack, expire_at := expire_at }

/-- Where `tell` / `hope` submit the completed message. -/
inductive SubmitTarget
  | executorSubmit
  | senderSubmit
deriving DecidableEq, Repr

/-- `ActorNode.tell`: a fire-and-forget message with `require_ack=True`,
submitted to the executor when local and to the sender otherwise. -/
def ActorNode.tell (r : ActorRegistery) (dst : String) (content : Option Content)
    (dst_node : Option String) (expire_at : Option Int) :
    Except String (ActorMessage × SubmitTarget) :=
  match createMessage r dst content dst_node false true expire_at with
  | .error e => .error e
  | .ok m =>
    .ok (m, if isLocalMessage r m then .executorSubmit else .senderSubmit)

/-- `ActorNode.hope`: a fire-and-forget message with `require_ack=False`,
submitted to the executor when local and to the sender otherwise. -/
def ActorNode.hope (r : ActorRegistery) (dst : String) (content : Option Content)
    (dst_node : Option String) (expire_at : Option Int) :
    Except String (ActorMessage × SubmitTarget) :=
  match createMessage r dst content dst_node false false expire_at with
  | .error e => .error e
  | .ok m =>
    .ok (m, if isLocalMessage r m then .executorSubmit else .senderSubmit)

/-- The executor's in-memory inbox queues (sizes reported by health). -/
structure ExecutorState where
  thread_inbox : List ActorMessage
  async_inbox : List ActorMessage
deriving DecidableEq, Repr

/-- Modelled from the spec (`executor.py` is not among the sources):
`Executor.handle_ask` synchronously executes a local ask, bypassing the inbox
queues — the executor state (both inbox queues) is left untouched and the
message is handled directly. -/
def ExecutorState.handle_ask (e : ExecutorState) (m : ActorMessage) :
    ExecutorState × ActorMessage := (e, m)

/-- How `ActorNode.ask` executes the completed message. -/
inductive AskRoute
  | handleAsk
  | mainThreadClientAsk
deriving DecidableEq, Repr

/-- `ActorNode.ask`: an `is_ask` message, executed via `executor.handle_ask`
when local and via `executor.main_thread_client.ask` otherwise. -/
def ActorNode.ask (r : ActorRegistery) (dst : String) (content : Option Content)
    (dst_node : Option String) : Except String (ActorMessage × AskRoute) :=
  match createMessage r dst content dst_node true false none with
  | .error e => .error e
  | .ok m =>
    if isLocalMessage r m then .ok (m, .handleAsk)
    else .ok (m, .mainThreadClientAsk)

/-! ### Node construction (`ActorNode.__init__`) -/

/-- The handlers `ActorNode.__init__` registers before the user's actors:
`do_actor_health` (name `actor.health`) and `do_actor_timer`
(name `actor.timer`). -/
def builtinActorNames : List String := ["actor.health", "actor.timer"]

/-- The key sequence of a Python dict built by repeated assignment: each name
keeps the position of its first occurrence. -/
def dedupFirst : List String → List String
  | [] => []
  | x :: xs => x :: (dedupFirst xs).filter (fun y => y ≠ x)

/-- `self.actors` after `__init__`: built-in actors first, then the user's
actors, keyed by name. -/
def nodeActorNames (userActors : List String) : List String :=
  dedupFirst (builtinActorNames ++ userActors)

/-- The storage `__init__` selects: durable log storage at a directory, or
in-memory storage. -/
inductive StorageKind
  | localStorage (dir_path : String)
  | memory
deriving DecidableEq, Repr

/-- The node state produced by the parts of `ActorNode.__init__` the claims
are about; `abspath` stands for `os.path.abspath(os.path.expanduser(...))`,
which depends on the process environment. -/
structure NodeState where
  actorNames : List String
  name : String
  storage : StorageKind
  storage_compactor : Option Nat
deriving DecidableEq, Repr

/-- `ActorNode.__init__`: register built-in then user actors; default the
name to `actor-{port}` when falsy; with a truthy `storage_dir_path`, use
`ActorLocalStorage` at `{storage_dir}/{node_name}` and create a
`ActorStorageCompactor` with `storage_compact_interval`; otherwise use
`ActorMemoryStorage` and no compactor. -/
def mkNode (userActors : List String) (port : Nat) (name : Option String)
    (storage_dir_path : Option String) (storage_compact_interval : Nat)
    (abspath : String → String) : NodeState :=
  let actorNames := nodeActorNames userActors
  let nodeName := match name with
    | some n => if n = "" then "actor-" ++ toString port else n
    | none => "actor-" ++ toString port
  match storage_dir_path with
  | some dir =>
    if dir = "" then
      { actorNames := actorNames, name := nodeName,
        storage := .memory, storage_compactor := none }
    else
      { actorNames := actorNames, name := nodeName,
        storage := .localStorage (abspath dir ++ "/" ++ nodeName),
        storage_compactor := some storage_compact_interval }
  | none =>
    { actorNames := actorNames, name := nodeName,
      storage := .memory, storage_compactor := none }

/-- `ActorNode._send_init_message`: the `(dst, dst_node)` pairs of the `hope`
calls it makes — `actor.init` only when an actor of that name is registered,
then always `actor.timer`, both addressed to the current node. -/
def sendInitMessage (actorNames : List String) (currentNode : String) :
    List (String × String) :=
  (if "actor.init" ∈ actorNames then [("actor.init", currentNode)] else []) ++
    [("actor.timer", currentNode)]

/-! ### `ActorNode.run` -/

/-- The externally visible steps of `ActorNode.run`, in program order. -/
inductive RunEvent
  | senderStart
  | executorStart
  | compactorStart
  | monitorStart
  | startupHandlers
  | sendInit
  | receiverRun
  | shutdownHandlers
  | monitorShutdown
  | compactorShutdown
  | executorShutdown
  | senderShutdown
deriving DecidableEq, Repr

/-- The sequence of steps `ActorNode.run` executes, for a node with or
without a storage compactor. The `finally` blocks in `run` make the suffix
from `shutdownHandlers` on run both on normal return of `receiver.run` and
when the `try` body raises after startup. -/
def runTrace (hasCompactor : Bool) : List RunEvent :=
  [.senderStart, .executorStart] ++
    (if hasCompactor then [.compactorStart] else []) ++
    [.monitorStart, .startupHandlers, .sendInit, .receiverRun,
      .shutdownHandlers, .monitorShutdown] ++
    (if hasCompactor then [.compactorShutdown] else []) ++
    [.executorShutdown, .senderShutdown]

/-- `eventsBefore l a b`: both events occur in `l` and the first occurrence
of `a` is strictly before the first occurrence of `b`. -/
def eventsBefore : List RunEvent → RunEvent → RunEvent → Bool
  | [], _, _ => false
  | x :: xs, a, b =>
    if x = a then xs.contains b
    else if x = b then false
    else eventsBefore xs a b

/-! ### Timers (`ActorNode._schedule_timers`) -/

/-- One entry of the `timers` list built by `_load_timers`:
`dict(name=..., seconds=..., deadline=...)`. -/
structure TimerEntry where
  name : String
  seconds : ℚ
  deadline : ℚ
deriving DecidableEq, Repr

/-- The first loop of `_schedule_timers`: collect the names of timers whose
deadline has passed and reset their deadlines to `now + seconds`. -/
def sweepTimers : ℚ → List TimerEntry → List String × List TimerEntry
  | _, [] => ([], [])
  | now, t :: rest =>
    let (tasks, timers) := sweepTimers now rest
    if t.deadline ≤ now then
      (t.name :: tasks, { t with deadline := now + t.seconds } :: timers)
    else (tasks, t :: timers)

/-- The tail of `_schedule_timers`: `wait_seconds` starts at 1, is lowered to
the smallest `deadline - now`, and the sleep is clamped at 0. -/
def sleepSeconds (now : ℚ) (timers : List TimerEntry) : ℚ :=
  max 0 (timers.foldl (fun w t => min w (t.deadline - now)) 1)

/-- The result of one `_schedule_timers` sweep: the `(dst, dst_node)` pairs
hoped, the updated timer list, and the sleep duration. `now` is the clock at
the top of the sweep; `now2` is the clock re-read after the hopes. -/
structure SweepResult where
  hopes : List (String × String)
  timers : List TimerEntry
  sleep : ℚ
deriving DecidableEq, Repr

/-- `ActorNode._schedule_timers` for one sweep: wake every timer whose
deadline has passed with a hope addressed to the current node, reset those
deadlines, then sleep `max(0, min(1, min(deadline - now2)))`. -/
def scheduleTimers (currentNode : String) (now now2 : ℚ)
    (timers : List TimerEntry) : SweepResult :=
  let (tasks, timers2) := sweepTimers now timers
  { hopes := tasks.map (fun n => (n, currentNode)),
    timers := timers2,
    sleep := sleepSeconds now2 timers2 }

/-! ### Health (`ActorNode.health`)

The values `health` reads off the components (storage counters, queue sizes,
registry specs) are produced by modules outside the provided sources, so they
appear here as opaque fields of component-state structures; `health` itself
is translated from `node.py`. -/

/-- The storage attributes `ActorNode.health` reads; `localDir` is
`(dir_path, current_filepath)` and is present exactly for
`ActorLocalStorage`. -/
structure StorageAttrs where
  max_pending_size : Nat
  max_done_size : Nat
  current_wal_size : Nat
  num_begin_messages : Nat
  num_send_messages : Nat
  num_pending_messages : Nat
  num_done_messages : Nat
  num_messages : Nat
  localDir : Option (String × String)
deriving DecidableEq, Repr

/-- The registry attributes `health` reads: `to_spec()` results are opaque
strings here. -/
structure RegisteryAttrs where
  current_node_spec : String
  registery_node_spec : Option String
  nodes_spec : String
deriving DecidableEq, Repr

/-- The sender attributes `health` reads. -/
structure SenderAttrs where
  outbox_size : Nat
  message_state_size : Nat
deriving DecidableEq, Repr

/-- The executor attributes `health` reads. -/
structure ExecutorAttrs where
  concurrency : Nat
  num_async_workers : Nat
  num_pool_workers : Nat
  num_thread_workers : Nat
  thread_inbox_size : Nat
  async_inbox_size : Nat
deriving DecidableEq, Repr

/-- The message-monitor attributes `health` reads. -/
structure MonitorAttrs where
  ack_timeout : Nat
  max_retry_count : Nat
deriving DecidableEq, Repr

/-- The components of an `ActorNode` that `health` consults. -/
structure NodeComponents where
  name : String
  host : String
  port : Nat
  subpath : String
  concurrency : Nat
  registery : RegisteryAttrs
  storage : StorageAttrs
  storage_compactor : Option Nat
  sender : SenderAttrs
  executor : ExecutorAttrs
  message_monitor : MonitorAttrs
deriving DecidableEq, Repr

/-- The `registery` sub-document of the health document. -/
structure RegisteryInfo where
  current_node : String
  registery_node : Option String
  nodes : String
deriving DecidableEq, Repr

/-- The `storage` sub-document of the health document. -/
structure StorageInfo where
  max_pending_size : Nat
  max_done_size : Nat
  current_wal_size : Nat
  num_begin_messages : Nat
  num_send_messages : Nat
  num_pending_messages : Nat
  num_done_messages : Nat
  num_messages : Nat
  localDir : Option (String × String)
deriving DecidableEq, Repr

/-- The JSON health document built by `ActorNode.health`. -/
structure HealthDoc where
  name : String
  host : String
  port : Nat
  subpath : String
  concurrency : Nat
  registery : RegisteryInfo
  storage : StorageInfo
  storage_compactor_interval : Option Nat
  sender_outbox_size : Nat
  sender_message_state_size : Nat
  executor_concurrency : Nat
  executor_num_async_workers : Nat
  executor_num_pool_workers : Nat
  executor_num_thread_workers : Nat
  executor_thread_inbox_size : Nat
  executor_async_inbox_size : Nat
  monitor_ack_timeout : Nat
  monitor_max_retry_count : Nat
deriving DecidableEq, Repr

/-- `ActorNode.health`: assemble the health document from the components. -/
def ActorNode.health (n : NodeComponents) : HealthDoc :=
  { name := n.name
    host := n.host
    port := n.port
    subpath := n.subpath
    concurrency := n.concurrency
    registery :=
      { current_node := n.registery.current_node_spec
        registery_node := match n.registery.registery_node_spec with
          | some s => some s
          | none => none
        nodes := n.registery.nodes_spec }
    storage :=
      { max_pending_size := n.storage.max_pending_size
        max_done_size := n.storage.max_done_size
        current_wal_size := n.storage.current_wal_size
        num_begin_messages := n.storage.num_begin_messages
        num_send_messages := n.storage.num_send_messages
        num_pending_messages := n.storage.num_pending_messages
        num_done_messages := n.storage.num_done_messages
        num_messages := n.storage.num_messages
        localDir := n.storage.localDir }
    storage_compactor_interval := match n.storage_compactor with
      | some interval => some interval
      | none => none
    sender_outbox_size := n.sender.outbox_size
    sender_message_state_size := n.sender.message_state_size
    executor_concurrency := n.executor.concurrency
    executor_num_async_workers := n.executor.num_async_workers
    executor_num_pool_workers := n.executor.num_pool_workers
    executor_num_thread_workers := n.executor.num_thread_workers
    executor_thread_inbox_size := n.executor.thread_inbox_size
    executor_async_inbox_size := n.executor.async_inbox_size
    monitor_ack_timeout := n.message_monitor.ack_timeout
    monitor_max_retry_count := n.message_monitor.max_retry_count }

/-- `ActorNode.do_actor_health` (the `actor.health` actor) returns
`self.health()`. -/
def do_actor_health (n : NodeComponents) : HealthDoc := ActorNode.health n

/-! ### Helper lemmas about the actorlib model -/

/-- `dedupFirst` keeps exactly the elements of the original list. -/
theorem mem_dedupFirst (a : String) (l : List String) :
    a ∈ dedupFirst l ↔ a ∈ l := by
  induction l with
  | nil => rfl
  | cons x xs ih =>
    by_cases hax : a = x
    · subst hax
      simp [dedupFirst]
    · simp [dedupFirst, List.mem_filter, hax, ih]

/-- `complete_message` only fills `dst_node`: the ask and ack flags are
unchanged. -/
theorem completeMessage_fields (r : ActorRegistery) (m m' : ActorMessage)
    (h : completeMessage r m = .ok m') :
    m'.require_ack = m.require_ack ∧ m'.is_ask = m.is_ask := by
  unfold completeMessage at h
  cases hd : m.dst_node with
  | some n =>
    rw [hd] at h
    simp only [Except.ok.injEq] at h
    rw [← h]
    exact ⟨rfl, rfl⟩
  | none =>
    rw [hd] at h
    cases ho : r.owner (moduleOf m.dst) with
    | some node =>
      rw [ho] at h
      simp only [Except.ok.injEq] at h
      rw [← h]
      exact ⟨rfl, rfl⟩
    | none =>
      rw [ho] at h
      simp at h

/-- One `_schedule_timers` pass over the timer list: the task names are the
names of the passed timers, and passed timers get their deadline reset. -/
theorem sweepTimers_eq (now : ℚ) (l : List TimerEntry) :
    sweepTimers now l =
      ((l.filter (fun t => decide (t.deadline ≤ now))).map TimerEntry.name,
        l.map (fun t =>
          if t.deadline ≤ now then { t with deadline := now + t.seconds } else t)) := by
  induction l with
  | nil => rfl
  | cons t rest ih =>
    by_cases h : t.deadline ≤ now
    · simp [sweepTimers, ih, h]
    · simp [sweepTimers, ih, h]

/-- Folding `min` starting from `a` never exceeds `a`. -/
theorem foldl_min_le (now : ℚ) (l : List TimerEntry) :
    ∀ a : ℚ, l.foldl (fun w t => min w (t.deadline - now)) a ≤ a := by
  induction l with
  | nil => intro a; simp
  | cons t rest ih =>
    intro a
    calc rest.foldl (fun w t => min w (t.deadline - now))
          (min a (t.deadline - now))
        ≤ min a (t.deadline - now) := ih _
      _ ≤ a := min_le_left _ _

/-! ## Claim theorems about actorlib -/

/-- C2 counterexample: in the run trace of a node with a compactor, the
Monitor is stopped strictly before the Sender, so the claimed shutdown order
(stop Sender before stopping Compactor/Monitor) is false on the code. -/
theorem run_shutdown_claimed_order_false :
    eventsBefore (runTrace true) RunEvent.senderShutdown RunEvent.monitorShutdown
      = false ∧
    eventsBefore (runTrace true) RunEvent.monitorShutdown RunEvent.senderShutdown
      = true := by
  decide

/-- C2 (amended): when `ActorNode.run` terminates, the Receiver stops first
(its blocking `run` returns), then the shutdown handlers run, then Monitor,
then Compactor (exactly when the node has one), then Executor, then Sender;
there is no separate storage-flush step. -/
theorem run_shutdown_order (hasCompactor : Bool) :
    eventsBefore (runTrace hasCompactor) RunEvent.receiverRun
      RunEvent.shutdownHandlers = true ∧
    eventsBefore (runTrace hasCompactor) RunEvent.shutdownHandlers
      RunEvent.monitorShutdown = true ∧
    eventsBefore (runTrace hasCompactor) RunEvent.monitorShutdown
      RunEvent.executorShutdown = true ∧
    eventsBefore (runTrace hasCompactor) RunEvent.executorShutdown
      RunEvent.senderShutdown = true ∧
    ((eventsBefore (runTrace hasCompactor) RunEvent.monitorShutdown
        RunEvent.compactorShutdown &&
      eventsBefore (runTrace hasCompactor) RunEvent.compactorShutdown
        RunEvent.executorShutdown) = hasCompactor) := by
  cases hasCompactor <;> decide

/-- C3 counterexample: `actor.init` is not a built-in actor, and a node with
no user actors emits no startup hope to `actor.init` at all (while
`actor.timer` is hoped). -/
theorem actor_init_not_always_fired :
    "actor.init" ∉ builtinActorNames ∧
    (sendInitMessage (nodeActorNames []) "actor-8000").countP
      (fun p => p.1 == "actor.init") = 0 ∧
    ("actor.timer", "actor-8000") ∈ sendInitMessage (nodeActorNames []) "actor-8000" := by
  decide

/-- C3 (amended): at node start a hope addressed to `actor.timer` on the
current node is always emitted; a hope to `actor.init` is emitted exactly
once iff a user actor named `actor.init` is registered (`actor.init` is not
built in); every startup hope is addressed to the current node. -/
theorem send_init_message_spec (userActors : List String) (currentNode : String) :
    ("actor.timer", currentNode) ∈
      sendInitMessage (nodeActorNames userActors) currentNode ∧
    (sendInitMessage (nodeActorNames userActors) currentNode).countP
        (fun p => p.1 == "actor.init") =
      (if "actor.init" ∈ userActors then 1 else 0) ∧
    (sendInitMessage (nodeActorNames userActors) currentNode).all
      (fun p => p.2 == currentNode) = true := by
  have hmem : ("actor.init" ∈ nodeActorNames userActors) ↔
      "actor.init" ∈ userActors := by
    rw [nodeActorNames, mem_dedupFirst]
    simp [builtinActorNames]
  refine ⟨?_, ?_, ?_⟩
  · simp [sendInitMessage]
  · by_cases h : "actor.init" ∈ userActors
    · rw [if_pos h, sendInitMessage, if_pos (hmem.mpr h)]
      simp [List.countP_cons]
    · rw [if_neg h, sendInitMessage, if_neg (fun hc => h (hmem.mp hc))]
      simp [List.countP_cons]
  · by_cases h : "actor.init" ∈ nodeActorNames userActors <;>
      simp [sendInitMessage, h]

/-- C4: `tell` builds a message with `require_ack=True` and `hope` one with
`require_ack=False`; both are submitted to the Executor when the completed
message is local and to the Sender otherwise. -/
theorem tell_hope_require_ack (r : ActorRegistery) (dst : String)
    (content : Option Content) (dst_node : Option String)
    (expire_at : Option Int) :
    (∀ m t, ActorNode.tell r dst content dst_node expire_at = .ok (m, t) →
      m.require_ack = true ∧
      (t = .executorSubmit ↔ isLocalMessage r m = true) ∧
      (t = .senderSubmit ↔ isLocalMessage r m = false)) ∧
    (∀ m t, ActorNode.hope r dst content dst_node expire_at = .ok (m, t) →
      m.require_ack = false ∧
      (t = .executorSubmit ↔ isLocalMessage r m = true) ∧
      (t = .senderSubmit ↔ isLocalMessage r m = false)) := by
  constructor
  · intro m t h
    unfold ActorNode.tell at h
    cases hc : createMessage r dst content dst_node false true expire_at with
    | error e => rw [hc] at h; simp at h
    | ok m0 =>
      rw [hc] at h
      simp only [Except.ok.injEq, Prod.mk.injEq] at h
      obtain ⟨hm, ht⟩ := h
      subst hm
      unfold createMessage at hc
      have hf := completeMessage_fields r _ m0 hc
      by_cases hl : isLocalMessage r m0 = true
      · rw [if_pos hl] at ht
        subst ht
        exact ⟨by simpa using hf.1, by simp [hl], by simp [hl]⟩
      · rw [if_neg hl] at ht
        subst ht
        have hl2 : isLocalMessage r m0 = false := by
          cases hb : isLocalMessage r m0
          · rfl
          · exact absurd hb hl
        exact ⟨by simpa using hf.1, by simp [hl2], by simp [hl2]⟩
  · intro m t h
    unfold ActorNode.hope at h
    cases hc : createMessage r dst content dst_node false false expire_at with
    | error e => rw [hc] at h; simp at h
    | ok m0 =>
      rw [hc] at h
      simp only [Except.ok.injEq, Prod.mk.injEq] at h
      obtain ⟨hm, ht⟩ := h
      subst hm
      unfold createMessage at hc
      have hf := completeMessage_fields r _ m0 hc
      by_cases hl : isLocalMessage r m0 = true
      · rw [if_pos hl] at ht
        subst ht
        exact ⟨by simpa using hf.1, by simp [hl], by simp [hl]⟩
      · rw [if_neg hl] at ht
        subst ht
        have hl2 : isLocalMessage r m0 = false := by
          cases hb : isLocalMessage r m0
          · rfl
          · exact absurd hb hl
        exact ⟨by simpa using hf.1, by simp [hl2], by simp [hl2]⟩

/-- Witness for C4 at a concrete registry owning every module locally. -/
theorem tell_hope_require_ack_witness :
    ({ src := "actor.init", dst := "worker.ping", dst_node := some "n1",
       content := [], is_ask := false, require_ack := true,
       expire_at := none } : ActorMessage).require_ack = true ∧
    (SubmitTarget.executorSubmit = SubmitTarget.executorSubmit ↔
      isLocalMessage ⟨"n1", none, fun _ => some "n1"⟩
        { src := "actor.init", dst := "worker.ping", dst_node := some "n1",
          content := [], is_ask := false, require_ack := true,
          expire_at := none } = true) ∧
    (SubmitTarget.executorSubmit = SubmitTarget.senderSubmit ↔
      isLocalMessage ⟨"n1", none, fun _ => some "n1"⟩
        { src := "actor.init", dst := "worker.ping", dst_node := some "n1",
          content := [], is_ask := false, require_ack := true,
          expire_at := none } = false) :=
  (tell_hope_require_ack ⟨"n1", none, fun _ => some "n1"⟩ "worker.ping"
    none none none).1 _ _ rfl

/-- C5: `ask` builds an `is_ask` message; when the completed message is local
it is executed via `executor.handle_ask`, which runs it synchronously without
touching the executor inbox queues; otherwise it goes through the executor's
main-thread client. -/
theorem ask_local_handle_ask (r : ActorRegistery) (dst : String)
    (content : Option Content) (dst_node : Option String) (e : ExecutorState) :
    ∀ m route, ActorNode.ask r dst content dst_node = .ok (m, route) →
      m.is_ask = true ∧
      (isLocalMessage r m = true →
        route = .handleAsk ∧ e.handle_ask m = (e, m)) ∧
      (isLocalMessage r m = false → route = .mainThreadClientAsk) := by
  intro m route h
  unfold ActorNode.ask at h
  cases hc : createMessage r dst content dst_node true false none with
  | error er => rw [hc] at h; simp at h
  | ok m0 =>
    rw [hc] at h
    dsimp only at h
    unfold createMessage at hc
    have hf := completeMessage_fields r _ m0 hc
    by_cases hl : isLocalMessage r m0 = true
    · rw [if_pos hl] at h
      simp only [Except.ok.injEq, Prod.mk.injEq] at h
      obtain ⟨hm, hr⟩ := h
      subst hm
      subst hr
      refine ⟨by simpa using hf.2, fun _ => ⟨rfl, rfl⟩, fun hfalse => ?_⟩
      rw [hfalse] at hl
      cases hl
    · rw [if_neg hl] at h
      simp only [Except.ok.injEq, Prod.mk.injEq] at h
      obtain ⟨hm, hr⟩ := h
      subst hm
      subst hr
      refine ⟨by simpa using hf.2, fun htrue => absurd htrue hl, fun _ => rfl⟩

/-- Witness for C5 at a concrete registry owning every module locally. -/
theorem ask_local_handle_ask_witness :
    ({ src := "actor.init", dst := "worker.ping", dst_node := some "n1",
       content := [], is_ask := true, require_ack := false,
       expire_at := none } : ActorMessage).is_ask = true ∧
    (isLocalMessage ⟨"n1", none, fun _ => some "n1"⟩
        { src := "actor.init", dst := "worker.ping", dst_node := some "n1",
          content := [], is_ask := true, require_ack := false,
          expire_at := none } = true →
      AskRoute.handleAsk = AskRoute.handleAsk ∧
      ExecutorState.handle_ask ⟨[], []⟩
          { src := "actor.init", dst := "worker.ping", dst_node := some "n1",
            content := [], is_ask := true, require_ack := false,
            expire_at := none } =
        (⟨[], []⟩,
          { src := "actor.init", dst := "worker.ping", dst_node := some "n1",
            content := [], is_ask := true, require_ack := false,
            expire_at := none })) ∧
    (isLocalMessage ⟨"n1", none, fun _ => some "n1"⟩
        { src := "actor.init", dst := "worker.ping", dst_node := some "n1",
          content := [], is_ask := true, require_ack := false,
          expire_at := none } = false →
      AskRoute.handleAsk = AskRoute.mainThreadClientAsk) :=
  ask_local_handle_ask ⟨"n1", none, fun _ => some "n1"⟩ "worker.ping"
    none none ⟨[], []⟩ _ _ rfl

/-- C6: a node constructed without `storage_dir_path` uses in-memory storage
and has no storage compactor; with a (truthy) `storage_dir_path` it uses
durable local storage under `{storage_dir}/{node_name}` and creates a
compactor with the configured interval. -/
theorem storage_selection (userActors : List String) (port : Nat)
    (name : Option String) (interval : Nat) (abspath : String → String) :
    ((mkNode userActors port name none interval abspath).storage = .memory ∧
      (mkNode userActors port name none interval abspath).storage_compactor
        = none) ∧
    ∀ dir : String, dir ≠ "" →
      (mkNode userActors port name (some dir) interval abspath).storage =
        .localStorage (abspath dir ++ "/" ++
          (mkNode userActors port name (some dir) interval abspath).name) ∧
      (mkNode userActors port name (some dir) interval abspath).storage_compactor
        = some interval := by
  refine ⟨⟨rfl, rfl⟩, ?_⟩
  intro dir hdir
  simp [mkNode, hdir]

/-- Witness for C6 with a concrete storage directory. -/
theorem storage_selection_witness :
    ("/data" : String) ≠ "" ∧
    ((mkNode [] 8000 none (some "/data") 60 (fun s => s)).storage =
      .localStorage ((fun s : String => s) "/data" ++ "/" ++
        (mkNode [] 8000 none (some "/data") 60 (fun s => s)).name) ∧
     (mkNode [] 8000 none (some "/data") 60 (fun s => s)).storage_compactor
        = some 60) :=
  ⟨by decide,
    (storage_selection [] 8000 none 60 (fun s => s)).2 "/data" (by decide)⟩

/-- C7: in one sweep of `_schedule_timers`, exactly the registered timers
whose deadline has passed at sweep time are woken, in order, by hopes
addressed to the current node; those timers get their deadline reset to
`now + seconds` and the others are unchanged; the sweep then sleeps a
duration between 0 and 1 second. -/
theorem schedule_timers_spec (currentNode : String) (now now2 : ℚ)
    (timers : List TimerEntry) :
    (scheduleTimers currentNode now now2 timers).hopes =
      (timers.filter (fun t => decide (t.deadline ≤ now))).map
        (fun t => (t.name, currentNode)) ∧
    (scheduleTimers currentNode now now2 timers).timers =
      timers.map (fun t =>
        if t.deadline ≤ now then { t with deadline := now + t.seconds }
        else t) ∧
    0 ≤ (scheduleTimers currentNode now now2 timers).sleep ∧
    (scheduleTimers currentNode now now2 timers).sleep ≤ 1 := by
  refine ⟨?_, ?_, ?_, ?_⟩
  · simp [scheduleTimers, sweepTimers_eq, List.map_map]
  · simp [scheduleTimers, sweepTimers_eq]
  · exact le_max_left 0 _
  · exact max_le (by norm_num) (foldl_min_le now2 _ 1)

/-- C8: the health document contains the node name, the registry snapshot
(current node, registry node, peer nodes), the storage counters (including
pending, done and WAL sizes), and the executor queue sizes (thread inbox and
async inbox), all taken from the corresponding components, and the
`actor.health` actor returns exactly this document. -/
theorem health_document_fields (n : NodeComponents) :
    (ActorNode.health n).name = n.name ∧
    (ActorNode.health n).registery.current_node
      = n.registery.current_node_spec ∧
    (ActorNode.health n).registery.registery_node
      = n.registery.registery_node_spec ∧
    (ActorNode.health n).registery.nodes = n.registery.nodes_spec ∧
    (ActorNode.health n).storage.num_pending_messages
      = n.storage.num_pending_messages ∧
    (ActorNode.health n).storage.num_done_messages
      = n.storage.num_done_messages ∧
    (ActorNode.health n).storage.current_wal_size
      = n.storage.current_wal_size ∧
    (ActorNode.health n).storage.max_pending_size
      = n.storage.max_pending_size ∧
    (ActorNode.health n).storage.max_done_size = n.storage.max_done_size ∧
    (ActorNode.health n).executor_thread_inbox_size
      = n.executor.thread_inbox_size ∧
    (ActorNode.health n).executor_async_inbox_size
      = n.executor.async_inbox_size ∧
    do_actor_health n = ActorNode.health n := by
  refine ⟨rfl, rfl, ?_, rfl, rfl, rfl, rfl, rfl, rfl, rfl, rfl, rfl⟩
  show (match n.registery.registery_node_spec with
    | some s => some s
    | none => none) = n.registery.registery_node_spec
  cases n.registery.registery_node_spec <;> rfl

end Rssant
